import Mathlib

/-!
Shallow embedding of the sousveillance-server core (header/message codec,
Server dispatch, Finder routing table, Session framing driver), with the
verification of its stated properties.

Bytes are modelled as `Nat` values interpreted modulo 256 where the code
decodes them as machine bytes.  Rust operations that can panic (slice
indexing, `byteorder` reads on short slices) are modelled as
`Option`-returning primitives, so `none` marks a panic; `u32` arithmetic
is `Nat` with the `as u32` cast written as `% 4294967296`.
-/

namespace Sousveillance

/-- `u32::checked_sub` on values below 2^32. -/
def checkedSub (a b : Nat) : Option Nat :=
  if b ≤ a then some (a - b) else none

/-- `BigEndian::read_u32`: decodes the first four bytes of a slice,
panicking (`none`) when fewer than four bytes are present. -/
def readU32 : List Nat → Option Nat
  | b0 :: b1 :: b2 :: b3 :: _ =>
      some (b0 % 256 * 16777216 + b1 % 256 * 65536 + b2 % 256 * 256 + b3 % 256)
  | _ => none

/-- `BigEndian::read_u64`: decodes the first eight bytes of a slice,
panicking (`none`) when fewer than eight bytes are present. -/
def readU64 : List Nat → Option Nat
  | b0 :: b1 :: b2 :: b3 :: b4 :: b5 :: b6 :: b7 :: _ =>
      some (b0 % 256 * 72057594037927936 + b1 % 256 * 281474976710656 +
            b2 % 256 * 1099511627776 + b3 % 256 * 4294967296 +
            b4 % 256 * 16777216 + b5 % 256 * 65536 + b6 % 256 * 256 + b7 % 256)
  | _ => none

/-- `&bytes[..n]`: panics (`none`) when `n` exceeds the slice length. -/
def takeChecked (n : Nat) (l : List Nat) : Option (List Nat) :=
  if n ≤ l.length then some (l.take n) else none

/-- `&bytes[n..]`: panics (`none`) when `n` exceeds the slice length. -/
def dropChecked (n : Nat) (l : List Nat) : Option (List Nat) :=
  if n ≤ l.length then some (l.drop n) else none

/-- `message::header::Part` — the parse-site tag of a header field. -/
inductive Part where
  | tokenSize
  | token (s : Nat)
  | idSize
  | id (s : Nat)
  | timestamp
deriving DecidableEq, Repr

/-- `Part::size` — the expected byte width of a field. -/
def Part.size : Part → Nat
  | .tokenSize => 4
  | .token s => s
  | .idSize => 4
  | .id s => s
  | .timestamp => 8

/-- `message::Header` — timestamp kept as the u64 millisecond count that
`Duration::from_millis` receives. -/
structure Header where
  token : List Nat
  id : List Nat
  timestamp : Nat
deriving DecidableEq, Repr

/-- `message::header::Error`. -/
structure HeaderError where
  remaining : Nat
  part : Part
deriving DecidableEq, Repr

/-- `Header::parse`.  The running `remaining` counter starts from
`bytes.len() as u32` (hence the `% 4294967296`) and each field is guarded
by `checked_sub` before being read, exactly as in the source. -/
def Header.parse (bytes : List Nat) :
    Option (Except HeaderError (Header × List Nat)) :=
  let r0 := bytes.length % 4294967296
  match checkedSub r0 (Part.size .tokenSize) with
  | none => some (.error ⟨r0, .tokenSize⟩)
  | some r1 =>
    match readU32 bytes with
    | none => none
    | some tokenSize =>
      match dropChecked 4 bytes with
      | none => none
      | some bytes1 =>
        match checkedSub r1 (Part.size (.token tokenSize)) with
        | none => some (.error ⟨r1, .token tokenSize⟩)
        | some r2 =>
          match takeChecked tokenSize bytes1 with
          | none => none
          | some token =>
            match dropChecked tokenSize bytes1 with
            | none => none
            | some bytes2 =>
              match checkedSub r2 (Part.size .idSize) with
              | none => some (.error ⟨r2, .idSize⟩)
              | some r3 =>
                match readU32 bytes2 with
                | none => none
                | some idSize =>
                  match dropChecked 4 bytes2 with
                  | none => none
                  | some bytes3 =>
                    match checkedSub r3 (Part.size (.id idSize)) with
                    | none => some (.error ⟨r3, .id idSize⟩)
                    | some r4 =>
                      match takeChecked idSize bytes3 with
                      | none => none
                      | some ident =>
                        match dropChecked idSize bytes3 with
                        | none => none
                        | some bytes4 =>
                          match checkedSub r4 (Part.size .timestamp) with
                          | none => some (.error ⟨r4, .timestamp⟩)
                          | some _ =>
                            match readU64 bytes4 with
                            | none => none
                            | some millis =>
                              match dropChecked 8 bytes4 with
                              | none => none
                              | some bytes5 =>
                                some (.ok (⟨token, ident, millis⟩, bytes5))

/-- The four big-endian bytes of a `u32` value. -/
def u32be (n : Nat) : List Nat :=
  [n / 16777216 % 256, n / 65536 % 256, n / 256 % 256, n % 256]

/-- The eight big-endian bytes of a `u64` value. -/
def u64be (n : Nat) : List Nat :=
  [n / 72057594037927936 % 256, n / 281474976710656 % 256,
   n / 1099511627776 % 256, n / 4294967296 % 256,
   n / 16777216 % 256, n / 65536 % 256, n / 256 % 256, n % 256]

/-- The wire format of a message body: 4-byte big-endian token length,
token bytes, 4-byte big-endian id length, id bytes, 8-byte big-endian
millisecond count, then the payload bytes. -/
def encodeMessage (token ident : List Nat) (millis : Nat) (payload : List Nat) :
    List Nat :=
  u32be token.length ++ (token ++ (u32be ident.length ++ (ident ++
    (u64be millis ++ payload))))

theorem checkedSub_eq_none {a b : Nat} : checkedSub a b = none ↔ a < b := by
  unfold checkedSub
  split <;> simp_all <;> omega

theorem checkedSub_eq_some {a b c : Nat} :
    checkedSub a b = some c ↔ b ≤ a ∧ c = a - b := by
  unfold checkedSub
  split <;> simp_all <;> omega

theorem readU32_eq_none {l : List Nat} : readU32 l = none ↔ l.length < 4 := by
  match l with
  | [] => simp [readU32]
  | [_] => simp [readU32]
  | [_, _] => simp [readU32]
  | [_, _, _] => simp [readU32]
  | _ :: _ :: _ :: _ :: _ => simp [readU32]

theorem readU64_eq_none {l : List Nat} : readU64 l = none ↔ l.length < 8 := by
  match l with
  | [] => simp [readU64]
  | [_] => simp [readU64]
  | [_, _] => simp [readU64]
  | [_, _, _] => simp [readU64]
  | [_, _, _, _] => simp [readU64]
  | [_, _, _, _, _] => simp [readU64]
  | [_, _, _, _, _, _] => simp [readU64]
  | [_, _, _, _, _, _, _] => simp [readU64]
  | _ :: _ :: _ :: _ :: _ :: _ :: _ :: _ :: _ => simp [readU64]

theorem takeChecked_eq_none {n : Nat} {l : List Nat} :
    takeChecked n l = none ↔ l.length < n := by
  unfold takeChecked
  split <;> simp_all

theorem dropChecked_eq_none {n : Nat} {l : List Nat} :
    dropChecked n l = none ↔ l.length < n := by
  unfold dropChecked
  split <;> simp_all

theorem takeChecked_eq_some {n : Nat} {l t : List Nat} :
    takeChecked n l = some t ↔ n ≤ l.length ∧ t = l.take n := by
  unfold takeChecked
  split
  · simp_all [eq_comm]
  · simp_all

theorem dropChecked_eq_some {n : Nat} {l t : List Nat} :
    dropChecked n l = some t ↔ n ≤ l.length ∧ t = l.drop n := by
  unfold dropChecked
  split
  · simp_all [eq_comm]
  · simp_all

theorem mod_mod_256 (x : Nat) : x % 256 % 256 = x % 256 :=
  Nat.mod_mod_of_dvd x dvd_rfl

theorem readU32_u32be (n : Nat) (h : n < 4294967296) (l : List Nat) :
    readU32 (u32be n ++ l) = some n := by
  simp only [u32be, List.cons_append, List.nil_append, readU32,
    Option.some.injEq, mod_mod_256]
  omega

theorem readU64_u64be (n : Nat) (h : n < 18446744073709551616) (l : List Nat) :
    readU64 (u64be n ++ l) = some n := by
  simp only [u64be, List.cons_append, List.nil_append, readU64,
    Option.some.injEq, mod_mod_256]
  omega

theorem takeChecked_append (l₁ l₂ : List Nat) :
    takeChecked l₁.length (l₁ ++ l₂) = some l₁ := by
  simp [takeChecked, List.take_left]

theorem dropChecked_append (l₁ l₂ : List Nat) :
    dropChecked l₁.length (l₁ ++ l₂) = some l₂ := by
  simp [dropChecked, List.drop_left]

theorem u32be_length (n : Nat) : (u32be n).length = 4 := rfl

theorem u64be_length (n : Nat) : (u64be n).length = 8 := rfl

theorem checkedSub_eq {a b c : Nat} (h1 : b ≤ a) (h2 : a - b = c) :
    checkedSub a b = some c := by
  subst h2
  simp [checkedSub, h1]

theorem dropChecked_four_u32be (n : Nat) (l : List Nat) :
    dropChecked 4 (u32be n ++ l) = some l := by
  have h := dropChecked_append (u32be n) l
  rwa [u32be_length] at h

theorem dropChecked_eight_u64be (n : Nat) (l : List Nat) :
    dropChecked 8 (u64be n ++ l) = some l := by
  have h := dropChecked_append (u64be n) l
  rwa [u64be_length] at h

/-- C4 (amended): the encode-then-parse round trip, for every frame whose
total encoded length fits the 32-bit remaining counter. -/
theorem header_roundtrip (token ident payload : List Nat) (millis : Nat)
    (hts : millis < 18446744073709551616)
    (htotal : 16 + token.length + ident.length + payload.length < 4294967296) :
    Header.parse (encodeMessage token ident millis payload) =
      some (.ok (⟨token, ident, millis⟩, payload)) := by
  have hlen : (encodeMessage token ident millis payload).length =
      16 + token.length + ident.length + payload.length := by
    simp [encodeMessage, u32be, u64be]
    omega
  have hmod : (encodeMessage token ident millis payload).length % 4294967296 =
      16 + token.length + ident.length + payload.length := by
    rw [hlen]
    exact Nat.mod_eq_of_lt htotal
  have h1 : checkedSub (16 + token.length + ident.length + payload.length)
      (Part.size Part.tokenSize) =
      some (12 + token.length + ident.length + payload.length) :=
    checkedSub_eq (by simp only [Part.size]; omega) (by simp only [Part.size]; omega)
  have h2 : readU32 (encodeMessage token ident millis payload) =
      some token.length := by
    unfold encodeMessage
    exact readU32_u32be _ (by omega) _
  have h3 : dropChecked 4 (encodeMessage token ident millis payload) =
      some (token ++ (u32be ident.length ++ (ident ++
        (u64be millis ++ payload)))) := by
    unfold encodeMessage
    exact dropChecked_four_u32be _ _
  have h4 : checkedSub (12 + token.length + ident.length + payload.length)
      (Part.size (Part.token token.length)) =
      some (12 + ident.length + payload.length) :=
    checkedSub_eq (by simp only [Part.size]; omega) (by simp only [Part.size]; omega)
  have h5 : takeChecked token.length (token ++ (u32be ident.length ++
      (ident ++ (u64be millis ++ payload)))) = some token :=
    takeChecked_append _ _
  have h6 : dropChecked token.length (token ++ (u32be ident.length ++
      (ident ++ (u64be millis ++ payload)))) =
      some (u32be ident.length ++ (ident ++ (u64be millis ++ payload))) :=
    dropChecked_append _ _
  have h7 : checkedSub (12 + ident.length + payload.length)
      (Part.size Part.idSize) = some (8 + ident.length + payload.length) :=
    checkedSub_eq (by simp only [Part.size]; omega) (by simp only [Part.size]; omega)
  have h8 : readU32 (u32be ident.length ++ (ident ++
      (u64be millis ++ payload))) = some ident.length :=
    readU32_u32be _ (by omega) _
  have h9 : dropChecked 4 (u32be ident.length ++ (ident ++
      (u64be millis ++ payload))) = some (ident ++ (u64be millis ++ payload)) :=
    dropChecked_four_u32be _ _
  have h10 : checkedSub (8 + ident.length + payload.length)
      (Part.size (Part.id ident.length)) = some (8 + payload.length) :=
    checkedSub_eq (by simp only [Part.size]; omega) (by simp only [Part.size]; omega)
  have h11 : takeChecked ident.length (ident ++ (u64be millis ++ payload)) =
      some ident := takeChecked_append _ _
  have h12 : dropChecked ident.length (ident ++ (u64be millis ++ payload)) =
      some (u64be millis ++ payload) := dropChecked_append _ _
  have h13 : checkedSub (8 + payload.length) (Part.size Part.timestamp) =
      some payload.length :=
    checkedSub_eq (by simp only [Part.size]; omega) (by simp only [Part.size]; omega)
  have h14 : readU64 (u64be millis ++ payload) = some millis :=
    readU64_u64be _ hts _
  have h15 : dropChecked 8 (u64be millis ++ payload) = some payload :=
    dropChecked_eight_u64be _ _
  simp only [Header.parse, hmod, h1, h2, h3, h4, h5, h6, h7, h8, h9, h10,
    h11, h12, h13, h14, h15]

/-- C4 witness: a tiny concrete frame round-trips. -/
theorem header_roundtrip_witness :
    Header.parse (encodeMessage [7] [9] 1000 [171]) =
      some (.ok (⟨[7], [9], 1000⟩, [171])) :=
  header_roundtrip [7] [9] [171] 1000 (by norm_num) (by norm_num)

/-- Total byte length of an encoded message body. -/
theorem encodeMessage_length (token ident : List Nat) (millis : Nat)
    (payload : List Nat) :
    (encodeMessage token ident millis payload).length =
      16 + token.length + ident.length + payload.length := by
  simp only [encodeMessage, List.length_append, u32be_length, u64be_length]
  omega

/-- Symbolic form of the round-trip failure: when the total encoded length
is congruent to 16 modulo 2^32 but the token alone is longer than 12
bytes, the truncated remaining counter rejects the token field. -/
theorem parse_overflow_token (token ident payload : List Nat) (millis : Nat)
    (hmod : (16 + token.length + ident.length + payload.length) %
      4294967296 = 16)
    (htl : token.length < 4294967296) (hbig : 12 < token.length) :
    Header.parse (encodeMessage token ident millis payload) =
      some (.error ⟨12, .token token.length⟩) := by
  have hm : (encodeMessage token ident millis payload).length %
      4294967296 = 16 := by
    rw [encodeMessage_length]
    exact hmod
  have h1 : checkedSub 16 (Part.size Part.tokenSize) = some 12 := by decide
  have h2 : readU32 (encodeMessage token ident millis payload) =
      some token.length := by
    unfold encodeMessage
    exact readU32_u32be _ htl _
  have h3 : dropChecked 4 (encodeMessage token ident millis payload) =
      some (token ++ (u32be ident.length ++ (ident ++
        (u64be millis ++ payload)))) := by
    unfold encodeMessage
    exact dropChecked_four_u32be _ _
  have h4 : checkedSub 12 (Part.size (Part.token token.length)) = none := by
    simp only [Part.size, checkedSub_eq_none]
    omega
  simp only [Header.parse, hm, h1, h2, h3, h4]

/-- C4 counterexample: with a 2^31-byte token and a 2^31-byte id the frame
is encodable (both length fields are below 2^32) but its total length
2^32+16 overflows the `as u32` cast, so parsing fails instead of
round-tripping. -/
theorem header_roundtrip_cx :
    Header.parse (encodeMessage (List.replicate 2147483648 0)
        (List.replicate 2147483648 0) 0 []) =
      some (.error ⟨12, .token 2147483648⟩) := by
  have h := parse_overflow_token (List.replicate 2147483648 0)
    (List.replicate 2147483648 0) [] 0
    (by rw [List.length_replicate]; norm_num [List.length_nil])
    (by rw [List.length_replicate]; norm_num)
    (by rw [List.length_replicate]; norm_num)
  rwa [List.length_replicate] at h

theorem readU32_replicate_zero (k : Nat) (h : 4 ≤ k) :
    readU32 (List.replicate k (0:Nat)) = some 0 := by
  rw [show k = 4 + (k - 4) from by omega, List.replicate_add,
    show List.replicate 4 (0:Nat) = [0, 0, 0, 0] from rfl]
  simp [readU32]

theorem readU64_replicate_zero (k : Nat) (h : 8 ≤ k) :
    readU64 (List.replicate k (0:Nat)) = some 0 := by
  rw [show k = 8 + (k - 8) from by omega, List.replicate_add,
    show List.replicate 8 (0:Nat) = [0, 0, 0, 0, 0, 0, 0, 0] from rfl]
  simp [readU64]

theorem dropChecked_replicate (n k : Nat) (h : n ≤ k) :
    dropChecked n (List.replicate k (0:Nat)) =
      some (List.replicate (k - n) 0) := by
  simp [dropChecked, List.length_replicate, h, List.drop_replicate]

theorem takeChecked_zero (l : List Nat) : takeChecked 0 l = some [] := by
  simp [takeChecked]

theorem dropChecked_zero (l : List Nat) : dropChecked 0 l = some l := by
  simp [dropChecked]

/-- C10 (amended): `Header::parse` is total — it never panics — on every
input, with no length bound: each slice access stays guarded even when the
initial `as u32` cast truncates, because the true remaining byte count
always exceeds the tracked 32-bit counter. -/
theorem header_parse_total (bytes : List Nat) :
    (Header.parse bytes).isSome := by
  simp only [Header.parse]
  repeat' split
  all_goals
    simp_all only [checkedSub_eq_some, checkedSub_eq_none, readU32_eq_none,
      readU64_eq_none, takeChecked_eq_none, takeChecked_eq_some,
      dropChecked_eq_none, dropChecked_eq_some, Part.size,
      List.length_drop, List.length_take, Option.isSome_some]
  all_goals first
    | rfl
    | (exfalso; omega)
    | omega

/-- Symbolic form of the truncation-survival run: an all-zero input whose
length is congruent to 16 modulo 2^32 parses completely — all five guarded
accesses succeed — even when the length itself exceeds `u32::MAX`. -/
theorem parse_replicate_zero (k : Nat) (hmod : k % 4294967296 = 16)
    (h16 : 16 ≤ k) :
    Header.parse (List.replicate k 0) =
      some (.ok (⟨[], [], 0⟩, List.replicate (k - 16) 0)) := by
  have hm : (List.replicate k (0:Nat)).length % 4294967296 = 16 := by
    rw [List.length_replicate]
    exact hmod
  have hc1 : checkedSub 16 (Part.size Part.tokenSize) = some 12 := by decide
  have h4 : readU32 (List.replicate k (0:Nat)) = some 0 :=
    readU32_replicate_zero _ (by omega)
  have hd1 : dropChecked 4 (List.replicate k (0:Nat)) =
      some (List.replicate (k - 4) 0) := dropChecked_replicate _ _ (by omega)
  have hc2 : checkedSub 12 (Part.size (Part.token 0)) = some 12 := by decide
  have ht1 : takeChecked 0 (List.replicate (k - 4) (0:Nat)) = some [] :=
    takeChecked_zero _
  have hd2 : dropChecked 0 (List.replicate (k - 4) (0:Nat)) =
      some (List.replicate (k - 4) 0) := dropChecked_zero _
  have hc3 : checkedSub 12 (Part.size Part.idSize) = some 8 := by decide
  have h5 : readU32 (List.replicate (k - 4) (0:Nat)) = some 0 :=
    readU32_replicate_zero _ (by omega)
  have hd3 : dropChecked 4 (List.replicate (k - 4) (0:Nat)) =
      some (List.replicate (k - 4 - 4) 0) :=
    dropChecked_replicate _ _ (by omega)
  have hc4 : checkedSub 8 (Part.size (Part.id 0)) = some 8 := by decide
  have ht2 : takeChecked 0 (List.replicate (k - 4 - 4) (0:Nat)) = some [] :=
    takeChecked_zero _
  have hd4 : dropChecked 0 (List.replicate (k - 4 - 4) (0:Nat)) =
      some (List.replicate (k - 4 - 4) 0) := dropChecked_zero _
  have hc5 : checkedSub 8 (Part.size Part.timestamp) = some 0 := by decide
  have h6 : readU64 (List.replicate (k - 4 - 4) (0:Nat)) = some 0 :=
    readU64_replicate_zero _ (by omega)
  have hd5 : dropChecked 8 (List.replicate (k - 4 - 4) (0:Nat)) =
      some (List.replicate (k - 16) 0) := by
    have h := dropChecked_replicate 8 (k - 4 - 4) (by omega)
    rwa [show k - 4 - 4 - 8 = k - 16 from by omega] at h
  simp only [Header.parse, hm, hc1, h4, hd1, hc2, ht1, hd2, hc3, h5, hd3,
    hc4, ht2, hd4, hc5, h6, hd5]

/-- C10 counterexample: an input of length 2^32+16 — beyond `u32::MAX` —
on which the truncated counter starts at 16, yet every one of the five
guarded accesses is still in bounds and parse returns cleanly, refuting
the claim that beyond the bound the guard no longer protects the
indexing. -/
theorem header_parse_beyond_u32_cx :
    Header.parse (List.replicate 4294967312 0) =
      some (.ok (⟨[], [], 0⟩, List.replicate 4294967296 0)) := by
  have h := parse_replicate_zero 4294967312 (by norm_num) (by norm_num)
  rwa [show (4294967312:Nat) - 16 = 4294967296 from by norm_num] at h

/-- Symbolic form of the accounting failure: an input whose length is a
positive multiple of 2^32 makes the truncated counter start at zero, so
parse reports `remaining = 0` with nothing consumed. -/
theorem parse_truncated_counter (k : Nat) (hmod : k % 4294967296 = 0) :
    Header.parse (List.replicate k 0) = some (.error ⟨0, .tokenSize⟩) := by
  have hm : (List.replicate k (0:Nat)).length % 4294967296 = 0 := by
    rw [List.length_replicate]
    exact hmod
  have hc : checkedSub 0 (Part.size Part.tokenSize) = none := by decide
  simp only [Header.parse, hm, hc]

/-- C3 counterexample: on a 2^32-byte input parse fails before consuming
any field yet reports `remaining = 0` instead of the input length — the
`as u32` cast breaks exact accounting beyond `u32::MAX`. -/
theorem header_parse_accounting_cx :
    Header.parse (List.replicate 4294967296 0) =
      some (.error ⟨0, .tokenSize⟩) ∧
    (List.replicate 4294967296 (0:Nat)).length = 4294967296 :=
  ⟨parse_truncated_counter 4294967296 (by norm_num),
   List.length_replicate _ _⟩

/-- C3 (amended): on inputs of length at most `u32::MAX`, every parse
failure reports the deficit exactly — `remaining` is the input length
minus all fields fully consumed so far, a 0- to 3-byte input fails on the
token-size field with `remaining` the whole input length, and the `token`
and `id` tags carry the declared length decoded from the preceding size
field. -/
theorem header_parse_error_accounting (bytes : List Nat)
    (hlen : bytes.length < 4294967296) (rem : Nat) (part : Part)
    (he : Header.parse bytes = some (.error ⟨rem, part⟩)) :
    (part = .tokenSize → rem = bytes.length ∧ bytes.length < 4) ∧
    (∀ T, part = .token T → readU32 bytes = some T ∧
      rem = bytes.length - 4 ∧ rem < T) ∧
    (part = .idSize → ∃ T, readU32 bytes = some T ∧
      rem = bytes.length - (4 + T) ∧ rem < 4) ∧
    (∀ I, part = .id I → ∃ T, readU32 bytes = some T ∧
      readU32 (bytes.drop (4 + T)) = some I ∧
      rem = bytes.length - (8 + T) ∧ rem < I) ∧
    (part = .timestamp → ∃ T I, readU32 bytes = some T ∧
      readU32 (bytes.drop (4 + T)) = some I ∧
      rem = bytes.length - (8 + T + I) ∧ rem < 8) := by
  have hmod : bytes.length % 4294967296 = bytes.length :=
    Nat.mod_eq_of_lt hlen
  simp only [Header.parse, hmod] at he
  split at he
  · -- token-size check failed
    rename_i hc1
    rw [checkedSub_eq_none] at hc1
    simp only [Part.size] at hc1
    simp only [Option.some.injEq, Except.error.injEq,
      HeaderError.mk.injEq] at he
    obtain ⟨h1, h2⟩ := he
    subst h1
    subst h2
    refine ⟨fun _ => ⟨rfl, hc1⟩, ?_, ?_, ?_, ?_⟩
    · intro T hT
      simp at hT
    · intro hT
      simp at hT
    · intro I hI
      simp at hI
    · intro hT
      simp at hT
  · rename_i r1 hc1
    rw [checkedSub_eq_some] at hc1
    simp only [Part.size] at hc1
    obtain ⟨hge1, hr1⟩ := hc1
    split at he
    · simp at he
    · rename_i tokenSize hread1
      split at he
      · simp at he
      · rename_i bytes1 hdrop1
        rw [dropChecked_eq_some] at hdrop1
        obtain ⟨-, hb1⟩ := hdrop1
        subst hb1
        split at he
        · -- token body check failed
          rename_i hc2
          rw [checkedSub_eq_none] at hc2
          simp only [Part.size] at hc2
          simp only [Option.some.injEq, Except.error.injEq,
            HeaderError.mk.injEq] at he
          obtain ⟨h1, h2⟩ := he
          subst h1
          subst h2
          refine ⟨?_, ?_, ?_, ?_, ?_⟩
          · intro hT
            simp at hT
          · intro T hT
            simp only [Part.token.injEq] at hT
            subst hT
            exact ⟨hread1, by omega, by omega⟩
          · intro hT
            simp at hT
          · intro I hI
            simp at hI
          · intro hT
            simp at hT
        · rename_i r2 hc2
          rw [checkedSub_eq_some] at hc2
          simp only [Part.size] at hc2
          obtain ⟨hge2, hr2⟩ := hc2
          split at he
          · simp at he
          · rename_i token htake1
            split at he
            · simp at he
            · rename_i bytes2 hdrop2
              rw [dropChecked_eq_some] at hdrop2
              obtain ⟨-, hb2⟩ := hdrop2
              subst hb2
              split at he
              · -- id-size check failed
                rename_i hc3
                rw [checkedSub_eq_none] at hc3
                simp only [Part.size] at hc3
                simp only [Option.some.injEq, Except.error.injEq,
                  HeaderError.mk.injEq] at he
                obtain ⟨h1, h2⟩ := he
                subst h1
                subst h2
                refine ⟨?_, ?_, ?_, ?_, ?_⟩
                · intro hT
                  simp at hT
                · intro T hT
                  simp at hT
                · intro _
                  exact ⟨tokenSize, hread1, by omega, by omega⟩
                · intro I hI
                  simp at hI
                · intro hT
                  simp at hT
              · rename_i r3 hc3
                rw [checkedSub_eq_some] at hc3
                simp only [Part.size] at hc3
                obtain ⟨hge3, hr3⟩ := hc3
                split at he
                · simp at he
                · rename_i idSize hread2
                  rw [List.drop_drop] at hread2
                  split at he
                  · simp at he
                  · rename_i bytes3 hdrop3
                    rw [dropChecked_eq_some] at hdrop3
                    obtain ⟨-, hb3⟩ := hdrop3
                    subst hb3
                    split at he
                    · -- id body check failed
                      rename_i hc4
                      rw [checkedSub_eq_none] at hc4
                      simp only [Part.size] at hc4
                      simp only [Option.some.injEq, Except.error.injEq,
                        HeaderError.mk.injEq] at he
                      obtain ⟨h1, h2⟩ := he
                      subst h1
                      subst h2
                      refine ⟨?_, ?_, ?_, ?_, ?_⟩
                      · intro hT
                        simp at hT
                      · intro T hT
                        simp at hT
                      · intro hT
                        simp at hT
                      · intro I hI
                        simp only [Part.id.injEq] at hI
                        subst hI
                        exact ⟨tokenSize, hread1, hread2, by omega, by omega⟩
                      · intro hT
                        simp at hT
                    · rename_i r4 hc4
                      rw [checkedSub_eq_some] at hc4
                      simp only [Part.size] at hc4
                      obtain ⟨hge4, hr4⟩ := hc4
                      split at he
                      · simp at he
                      · rename_i ident htake2
                        split at he
                        · simp at he
                        · rename_i bytes4 hdrop4
                          rw [dropChecked_eq_some] at hdrop4
                          obtain ⟨-, hb4⟩ := hdrop4
                          subst hb4
                          split at he
                          · -- timestamp check failed
                            rename_i hc5
                            rw [checkedSub_eq_none] at hc5
                            simp only [Part.size] at hc5
                            simp only [Option.some.injEq, Except.error.injEq,
                              HeaderError.mk.injEq] at he
                            obtain ⟨h1, h2⟩ := he
                            subst h1
                            subst h2
                            refine ⟨?_, ?_, ?_, ?_, ?_⟩
                            · intro hT
                              simp at hT
                            · intro T hT
                              simp at hT
                            · intro hT
                              simp at hT
                            · intro I hI
                              simp at hI
                            · intro _
                              exact ⟨tokenSize, idSize, hread1, hread2,
                                by omega, by omega⟩
                          · split at he
                            · simp at he
                            · split at he
                              · simp at he
                              · simp at he

/-- C3 witness: a valid 4-byte token-size field declaring a 2-byte token
followed by a single token byte; parse fails with `remaining = 1` and the
declared length 2 inside the `token` tag, exactly the deficit. -/
theorem header_parse_error_accounting_witness :
    readU32 [0, 0, 0, 2, 9] = some 2 ∧
      (1:Nat) = [0, 0, 0, 2, 9].length - 4 ∧ (1:Nat) < 2 :=
  (header_parse_error_accounting [0, 0, 0, 2, 9] (by norm_num) 1
    (.token 2) (by rfl)).2.1 2 rfl

/-- `message::Error<E>` — header failures kept apart from payload-decoder
failures. -/
inductive MessageError (ε : Type) where
  | headerError (e : HeaderError)
  | payloadError (e : ε)
deriving DecidableEq, Repr

/-- `message::Message<P>`. -/
structure Message (π : Type) where
  header : Header
  payload : π
deriving DecidableEq, Repr

/-- `Message::parse`, parameterised by the pluggable payload decoder
(the `Payload` trait's `parse`).  The `Option` layer is inherited from
`Header::parse`: `none` still marks a panic, which the payload layer never
adds to. -/
def Message.parse {ε π : Type} (payloadParse : List Nat → Except ε π)
    (bytes : List Nat) : Option (Except (MessageError ε) (Message π)) :=
  match Header.parse bytes with
  | none => none
  | some (.error e) => some (.error (.headerError e))
  | some (.ok (h, rest)) =>
    match payloadParse rest with
    | .error e => some (.error (.payloadError e))
    | .ok p => some (.ok ⟨h, p⟩)

/-- The trivial `Payload` impl for `&[u8]`: infallible, borrows the
remaining bytes verbatim. -/
def bytesPayload : List Nat → Except Empty (List Nat) :=
  fun b => .ok b

/-- `server::AuthError<E>`. -/
inductive AuthError (α : Type) where
  | invalidToken
  | other (e : α)
deriving DecidableEq, Repr

/-- `server::ConsumeError<A, P>`. -/
inductive ConsumeError (α ρ : Type) where
  | auth (e : AuthError α)
  | missingId
  | push (e : ρ)
deriving DecidableEq, Repr

/-- The `Server` trait's provided `consume`, parameterised by the trait
operations: `auth` yields the token's routing table (a finite map from id
bytes to streams, modelled extensionally), and `push` is the found
stream's push.  Mirrors
`auth(token).and_then(get_mut(id).ok_or(MissingId)).and_then(push)`. -/
def Server.consume {α S ρ π : Type}
    (auth : List Nat → Except (AuthError α) (List Nat → Option S))
    (push : S → Nat → π → Except ρ Unit)
    (msg : Message π) : Except (ConsumeError α ρ) Unit :=
  match auth msg.header.token with
  | .error e => .error (.auth e)
  | .ok finder =>
    match finder msg.header.id with
    | none => .error .missingId
    | some stream =>
      match push stream msg.header.timestamp msg.payload with
      | .error e => .error (.push e)
      | .ok _ => .ok ()

/-- `Finder::extract` for `HashMap<Vec<u8>, V>` (the routing table is
modelled extensionally as a function from key bytes to an optional
stream): remove the entry, run the stream's consuming `extract`, and on
failure reinsert the stream handed back by the failed call. -/
def Finder.extract {S E X : Type} (table : List Nat → Option S)
    (extractStream : S → Except (S × E) X) (key : List Nat) :
    Option (Except E X) × (List Nat → Option S) :=
  match table key with
  | none => (none, table)
  | some v =>
    let removed : List Nat → Option S := fun k => if k = key then none else table k
    match extractStream v with
    | .ok x => (some (.ok x), removed)
    | .error (v2, err) =>
      (some (.error err), fun k => if k = key then some v2 else removed k)

/-- C1: `Finder::extract` is transactional: an absent key returns `None`
and leaves the table untouched; a successful stream extract returns
`Some(Ok)` and removes exactly that key; a failed stream extract returns
`Some(Err)` and afterwards the key maps to the stream handed back by the
failed call, with every other entry unchanged. -/
theorem finder_extract_transactional {S E X : Type}
    (table : List Nat → Option S) (extractStream : S → Except (S × E) X)
    (key : List Nat) :
    (table key = none →
      Finder.extract table extractStream key = (none, table)) ∧
    (∀ v x, table key = some v → extractStream v = .ok x →
      (Finder.extract table extractStream key).1 = some (.ok x) ∧
      (Finder.extract table extractStream key).2 key = none ∧
      ∀ k, k ≠ key →
        (Finder.extract table extractStream key).2 k = table k) ∧
    (∀ v v2 err, table key = some v → extractStream v = .error (v2, err) →
      (Finder.extract table extractStream key).1 = some (.error err) ∧
      (Finder.extract table extractStream key).2 key = some v2 ∧
      ∀ k, k ≠ key →
        (Finder.extract table extractStream key).2 k = table k) := by
  refine ⟨?_, ?_, ?_⟩
  · intro h
    simp only [Finder.extract, h]
  · intro v x hv hx
    refine ⟨?_, ?_, ?_⟩
    · simp only [Finder.extract, hv, hx]
    · simp only [Finder.extract, hv, hx]
      simp
    · intro k hk
      simp only [Finder.extract, hv, hx]
      simp [hk]
  · intro v v2 err hv hx
    refine ⟨?_, ?_, ?_⟩
    · simp only [Finder.extract, hv, hx]
    · simp only [Finder.extract, hv, hx]
      simp
    · intro k hk
      simp only [Finder.extract, hv, hx]
      simp [hk]

/-- A two-entry routing table used by the concrete checks. -/
def tableTwo : List Nat → Option Nat :=
  fun k => if k = [1] then some 0 else if k = [2] then some 5 else none

/-- A stream extract that always succeeds with the stream's value. -/
def extractOkNat : Nat → Except (Nat × Unit) Nat :=
  fun s => .ok s

/-- A stream extract that always fails, handing back a changed stream. -/
def extractFailNat : Nat → Except (Nat × Unit) Nat :=
  fun s => .error (s + 1, ())

/-- C1 witness: on a two-entry table, extract of an absent key is a no-op
returning `None`; a successful extract removes only its key; a failing
extract reports the error and reinstates the stream returned by the
failed call while the other entry survives. -/
theorem finder_extract_transactional_witness :
    (Finder.extract tableTwo extractOkNat [9] = (none, tableTwo)) ∧
    ((Finder.extract tableTwo extractOkNat [1]).1 = some (.ok 0) ∧
      (Finder.extract tableTwo extractOkNat [1]).2 [1] = none ∧
      (Finder.extract tableTwo extractOkNat [1]).2 [2] = some 5) ∧
    ((Finder.extract tableTwo extractFailNat [1]).1 = some (.error ()) ∧
      (Finder.extract tableTwo extractFailNat [1]).2 [1] = some 1 ∧
      (Finder.extract tableTwo extractFailNat [1]).2 [2] = some 5) := by
  have hOk := finder_extract_transactional tableTwo extractOkNat [1]
  have hFail := finder_extract_transactional tableTwo extractFailNat [1]
  have hNone := finder_extract_transactional tableTwo extractOkNat [9]
  refine ⟨hNone.1 rfl, ?_, ?_⟩
  · have h := hOk.2.1 0 0 rfl rfl
    exact ⟨h.1, h.2.1, by
      have := h.2.2 [2] (by decide)
      rw [this]
      rfl⟩
  · have h := hFail.2.2 0 1 () rfl rfl
    exact ⟨h.1, h.2.1, by
      have := h.2.2 [2] (by decide)
      rw [this]
      rfl⟩

/-- C5: `Server::consume` classifies each failure into its tagged
variant: an `InvalidToken` auth rejection becomes `Auth(InvalidToken)`, a
valid token with an id absent from the returned finder becomes
`MissingId`, a found stream whose push fails becomes `Push(e)`, and a
successful push yields `Ok(())`. -/
theorem server_consume_cases {α S ρ π : Type}
    (auth : List Nat → Except (AuthError α) (List Nat → Option S))
    (push : S → Nat → π → Except ρ Unit) (msg : Message π) :
    (auth msg.header.token = .error .invalidToken →
      Server.consume auth push msg = .error (.auth .invalidToken)) ∧
    (∀ finder, auth msg.header.token = .ok finder →
      finder msg.header.id = none →
      Server.consume auth push msg = .error .missingId) ∧
    (∀ finder stream e, auth msg.header.token = .ok finder →
      finder msg.header.id = some stream →
      push stream msg.header.timestamp msg.payload = .error e →
      Server.consume auth push msg = .error (.push e)) ∧
    (∀ finder stream, auth msg.header.token = .ok finder →
      finder msg.header.id = some stream →
      push stream msg.header.timestamp msg.payload = .ok () →
      Server.consume auth push msg = .ok ()) := by
  refine ⟨?_, ?_, ?_, ?_⟩
  · intro h
    simp only [Server.consume, h]
  · intro finder hf hid
    simp only [Server.consume, hf, hid]
  · intro finder stream e hf hid hp
    simp only [Server.consume, hf, hid, hp]
  · intro finder stream hf hid hp
    simp only [Server.consume, hf, hid, hp]

/-- C5 witness: the four concrete dispatch outcomes on tiny servers. -/
theorem server_consume_cases_witness :
    @Server.consume Unit Unit Unit Unit (fun _ => .error .invalidToken)
      (fun _ _ _ => .ok ()) ⟨⟨[0], [1], 0⟩, ()⟩ =
      .error (.auth .invalidToken) ∧
    @Server.consume Unit Unit Unit Unit (fun _ => .ok (fun _ => none))
      (fun _ _ _ => .ok ()) ⟨⟨[0], [1], 0⟩, ()⟩ = .error .missingId ∧
    @Server.consume Unit Unit Unit Unit (fun _ => .ok (fun _ => some ()))
      (fun _ _ _ => .error ()) ⟨⟨[0], [1], 0⟩, ()⟩ = .error (.push ()) ∧
    @Server.consume Unit Unit Unit Unit (fun _ => .ok (fun _ => some ()))
      (fun _ _ _ => .ok ()) ⟨⟨[0], [1], 0⟩, ()⟩ = .ok () :=
  ⟨(server_consume_cases _ _ _).1 rfl,
   (server_consume_cases _ _ _).2.1 _ rfl rfl,
   (server_consume_cases _ _ _).2.2.1 _ () () rfl rfl rfl,
   (server_consume_cases _ _ _).2.2.2 _ () rfl rfl rfl⟩

/-- C9: `Message::parse` discriminates protocol from application errors:
header failures surface as `HeaderError(_)`, payload-decoder failures on
the header's leftover bytes surface as `PayloadError(_)`, and the trivial
byte-slice decoder never fails — with it `Message::parse` can only fail
with a header error. -/
theorem message_parse_discrimination {ε π : Type}
    (payloadParse : List Nat → Except ε π) (bytes : List Nat) :
    (∀ e, Header.parse bytes = some (.error e) →
      Message.parse payloadParse bytes = some (.error (.headerError e))) ∧
    (∀ h rest pe, Header.parse bytes = some (.ok (h, rest)) →
      payloadParse rest = .error pe →
      Message.parse payloadParse bytes = some (.error (.payloadError pe))) ∧
    (∀ h rest p, Header.parse bytes = some (.ok (h, rest)) →
      payloadParse rest = .ok p →
      Message.parse payloadParse bytes = some (.ok ⟨h, p⟩)) ∧
    (∀ b, bytesPayload b = .ok b) ∧
    (∀ x, Message.parse bytesPayload bytes = some (.error x) →
      ∃ e, x = MessageError.headerError e) := by
  refine ⟨?_, ?_, ?_, ?_, ?_⟩
  · intro e he
    simp only [Message.parse, he]
  · intro h rest pe hh hp
    simp only [Message.parse, hh, hp]
  · intro h rest p hh hp
    simp only [Message.parse, hh, hp]
  · intro b
    rfl
  · intro x hx
    simp only [Message.parse] at hx
    split at hx
    · simp at hx
    · rename_i e0 heq
      simp only [Option.some.injEq, Except.error.injEq] at hx
      exact ⟨e0, hx.symm⟩
    · rename_i h0 rest0 heq
      simp [bytesPayload] at hx

/-- C9 witness: a failing header, a failing payload decoder, and the
infallible byte decoder, each at a concrete input. -/
theorem message_parse_discrimination_witness :
    Message.parse (fun (_ : List Nat) => (Except.error () : Except Unit Unit))
      [] = some (.error (.headerError ⟨0, .tokenSize⟩)) ∧
    Message.parse (fun (_ : List Nat) => (Except.error () : Except Unit Unit))
      [0, 0, 0, 0, 0, 0, 0, 0, 0, 0, 0, 0, 0, 0, 0, 0] =
      some (.error (.payloadError ())) ∧
    Message.parse bytesPayload
      [0, 0, 0, 0, 0, 0, 0, 0, 0, 0, 0, 0, 0, 0, 0, 0] =
      some (.ok ⟨⟨[], [], 0⟩, []⟩) :=
  ⟨(message_parse_discrimination _ _).1 ⟨0, .tokenSize⟩ rfl,
   (message_parse_discrimination _ _).2.1 ⟨[], [], 0⟩ [] () rfl rfl,
   (message_parse_discrimination _ _).2.2.1 ⟨[], [], 0⟩ [] [] rfl rfl⟩

/-- `session::Error<A, P>`.  `read` carries no payload here because the
byte source is modelled as an in-memory cursor, which never fails;
`truncated` keeps the source's `as u16` casts; the parse error is the
message error with the trivial byte-slice payload decoder. -/
inductive SessionError (ε : Type) where
  | read
  | oneByteMessageSize
  | truncated (found remaining : Nat)
  | parse (e : MessageError Empty)
  | consume (e : ε)
deriving DecidableEq, Repr

/-- The state a `Session` owns: the unread suffix of the byte source (a
cursor: a read of `n` bytes returns `take n`), the reusable buffer's
length and capacity, and the mutably borrowed server. -/
structure SessionState (σ : Type) where
  reader : List Nat
  bufLen : Nat
  bufCap : Nat
  server : σ
deriving DecidableEq, Repr

/-- `Session::new`: fresh empty buffer. -/
def Session.new {σ : Type} (server : σ) (reader : List Nat) :
    SessionState σ :=
  ⟨reader, 0, 0, server⟩

/-- One step of `<Session as Iterator>::next`, parameterised by the
server's `consume`.  The returned outer `Option` marks the `unreachable!`
and panic paths (`none`, never taken on cursor semantics); the inner
`Option` is the iterator's `None` at end of input.  The prefix read
targets a 2-byte scratch buffer; `reserve` is modelled by its guarantee
`capacity = max capacity (len + additional)`; `set_len(size)` sets the
buffer length before the body read, and a complete body read of exactly
`size` bytes overwrites the buffer entirely, so the parsed body is the
bytes the cursor returned. -/
def Session.next {σ ε : Type}
    (consume : σ → Message (List Nat) → σ × Except ε Unit)
    (s : SessionState σ) :
    Option (Option (Except (SessionError ε) (List Nat))) × SessionState σ :=
  match s.reader.take 2 with
  | [] => (some none, { s with reader := s.reader.drop 2 })
  | [_] => (some (some (.error .oneByteMessageSize)),
            { s with reader := s.reader.drop 2 })
  | [b0, b1] =>
    let size := b0 % 256 * 256 + b1 % 256
    let reader1 := s.reader.drop 2
    let cap1 := if s.bufLen ≤ size then max s.bufCap size else s.bufCap
    let body := reader1.take size
    let found := body.length
    let s1 : SessionState σ := ⟨reader1.drop size, size, cap1, s.server⟩
    if found < size then
      (some (some (.error (.truncated (found % 65536)
        ((size - found) % 65536)))), s1)
    else if found = size then
      match Message.parse bytesPayload body with
      | none => (none, s1)
      | some (.error e) => (some (some (.error (.parse e))), s1)
      | some (.ok msg) =>
        match consume s.server msg with
        | (srv2, .error ce) =>
          (some (some (.error (.consume ce))), { s1 with server := srv2 })
        | (srv2, .ok _) =>
          (some (some (.ok msg.header.id)), { s1 with server := srv2 })
    else (none, s1)
  | _ => (none, s)

/-- A trivial always-succeeding consume used by the concrete checks. -/
def constConsume : Unit → Message (List Nat) → Unit × Except Empty Unit :=
  fun s _ => (s, .ok ())

/-- C2 counterexample: the prefix is two bytes, not four.  With exactly
three bytes available the prefix read returns the first two bytes — a
complete prefix declaring body size 1 — and the session goes on to parse
the 1-byte body, producing a `Parse` error; no `ThreeByteMessageSize`
outcome exists.  With exactly two bytes available the prefix read is
likewise complete (size 0) and the empty body is parsed; no
`TwoByteMessageSize` outcome exists. -/
theorem session_prefix_cx :
    Session.next constConsume ⟨[0, 1, 7], 0, 0, ()⟩ =
      (some (some (.error (.parse (.headerError ⟨1, .tokenSize⟩)))),
       ⟨[], 1, 1, ()⟩) ∧
    Session.next constConsume ⟨[0, 0], 0, 0, ()⟩ =
      (some (some (.error (.parse (.headerError ⟨0, .tokenSize⟩)))),
       ⟨[], 0, 0, ()⟩) :=
  ⟨rfl, rfl⟩

/-- C2 (amended): the size prefix is 2 bytes.  A read of exactly one byte
yields `OneByteMessageSize` — the only prefix-truncation error — and a
complete 2-byte read is decoded as an unsigned 16-bit big-endian body
size, which becomes the buffer length set before the body read. -/
theorem session_prefix_two_bytes {σ ε : Type}
    (consume : σ → Message (List Nat) → σ × Except ε Unit) :
    (∀ (srv : σ) (len cap b : Nat),
      Session.next consume ⟨[b], len, cap, srv⟩ =
        (some (some (.error .oneByteMessageSize)), ⟨[], len, cap, srv⟩)) ∧
    (∀ (srv : σ) (len cap b0 b1 : Nat) (rest : List Nat),
      (Session.next consume ⟨b0 :: b1 :: rest, len, cap, srv⟩).2.bufLen =
        b0 % 256 * 256 + b1 % 256) := by
  constructor
  · intro srv len cap b
    rfl
  · intro srv len cap b0 b1 rest
    simp only [Session.next, List.take_succ_cons, List.take_zero,
      List.drop_succ_cons, List.drop_zero]
    repeat' split
    all_goals rfl

/-- C7: after a complete 2-byte prefix declaring body size `size`, a body
read returning `found < size` bytes yields exactly
`Truncated{found, remaining = size - found}`, and a body read of exactly
`size` bytes hands the body to `Message::parse`, whose outcome (parse
error, consume error, or the consumed id) is the item produced. -/
theorem session_body_truncation {σ ε : Type}
    (consume : σ → Message (List Nat) → σ × Except ε Unit)
    (srv : σ) (len cap b0 b1 : Nat) (rest : List Nat) :
    ((rest.take (b0 % 256 * 256 + b1 % 256)).length <
        b0 % 256 * 256 + b1 % 256 →
      (Session.next consume ⟨b0 :: b1 :: rest, len, cap, srv⟩).1 =
        some (some (.error (.truncated
          (rest.take (b0 % 256 * 256 + b1 % 256)).length
          (b0 % 256 * 256 + b1 % 256 -
            (rest.take (b0 % 256 * 256 + b1 % 256)).length))))) ∧
    ((rest.take (b0 % 256 * 256 + b1 % 256)).length =
        b0 % 256 * 256 + b1 % 256 →
      (∀ e, Message.parse bytesPayload
          (rest.take (b0 % 256 * 256 + b1 % 256)) = some (.error e) →
        (Session.next consume ⟨b0 :: b1 :: rest, len, cap, srv⟩).1 =
          some (some (.error (.parse e)))) ∧
      (∀ msg, Message.parse bytesPayload
          (rest.take (b0 % 256 * 256 + b1 % 256)) = some (.ok msg) →
        (∀ ce, (consume srv msg).2 = .error ce →
          (Session.next consume ⟨b0 :: b1 :: rest, len, cap, srv⟩).1 =
            some (some (.error (.consume ce)))) ∧
        ((consume srv msg).2 = .ok () →
          (Session.next consume ⟨b0 :: b1 :: rest, len, cap, srv⟩).1 =
            some (some (.ok msg.header.id))))) := by
  have hb : (0:Nat) < 65536 := by norm_num
  constructor
  · intro hlt
    simp only [Session.next, List.take_succ_cons, List.take_zero,
      List.drop_succ_cons, List.drop_zero, if_pos hlt]
    have h1 : (rest.take (b0 % 256 * 256 + b1 % 256)).length % 65536 =
        (rest.take (b0 % 256 * 256 + b1 % 256)).length := by
      have := List.length_take_le (b0 % 256 * 256 + b1 % 256) rest
      omega
    have h2 : (b0 % 256 * 256 + b1 % 256 -
        (rest.take (b0 % 256 * 256 + b1 % 256)).length) % 65536 =
        b0 % 256 * 256 + b1 % 256 -
          (rest.take (b0 % 256 * 256 + b1 % 256)).length := by
      omega
    rw [h1, h2]
  · intro heq
    have hnlt : ¬ (rest.take (b0 % 256 * 256 + b1 % 256)).length <
        b0 % 256 * 256 + b1 % 256 := by omega
    constructor
    · intro e he
      simp only [Session.next, List.take_succ_cons, List.take_zero,
        List.drop_succ_cons, List.drop_zero, if_neg hnlt, if_pos heq, he]
    · intro msg hmsg
      constructor
      · intro ce hce
        rcases hc : consume srv msg with ⟨srv2, res⟩
        rw [hc] at hce
        simp only at hce
        subst hce
        simp only [Session.next, List.take_succ_cons, List.take_zero,
          List.drop_succ_cons, List.drop_zero, if_neg hnlt, if_pos heq,
          hmsg, hc]
      · intro hok
        rcases hc : consume srv msg with ⟨srv2, res⟩
        rw [hc] at hok
        simp only at hok
        subst hok
        simp only [Session.next, List.take_succ_cons, List.take_zero,
          List.drop_succ_cons, List.drop_zero, if_neg hnlt, if_pos heq,
          hmsg, hc]

/-- C7 witness: a prefix declaring 5 body bytes over a 1-byte remainder
yields `Truncated{found = 1, remaining = 4}`; a prefix declaring a
complete 16-byte all-zero body parses and consumes it, yielding the empty
id. -/
theorem session_body_truncation_witness :
    (Session.next constConsume ⟨[0, 5, 9], 0, 0, ()⟩).1 =
      some (some (.error (.truncated 1 4))) ∧
    (Session.next constConsume
        ⟨[0, 16, 0, 0, 0, 0, 0, 0, 0, 0, 0, 0, 0, 0, 0, 0, 0, 0], 0, 0, ()⟩).1 =
      some (some (.ok [])) := by
  constructor
  · exact (session_body_truncation constConsume () 0 0 0 5 [9]).1 (by decide)
  · exact (((session_body_truncation constConsume () 0 0 0 16
      [0, 0, 0, 0, 0, 0, 0, 0, 0, 0, 0, 0, 0, 0, 0, 0]).2 (by decide)).2
      ⟨⟨[], [], 0⟩, []⟩ (by rfl)).2 (by rfl)

/-- C8: the reusable buffer keeps its monotonic-capacity invariant: given
the `Vec` invariant `len ≤ capacity`, one `next` call never shrinks the
capacity, re-establishes the invariant, and whenever a complete prefix
declares a frame size the capacity before the body read is at least that
size — both when the buffer grows and when the new size is smaller. -/
theorem session_buffer_capacity {σ ε : Type}
    (consume : σ → Message (List Nat) → σ × Except ε Unit)
    (s : SessionState σ) (hinv : s.bufLen ≤ s.bufCap) :
    s.bufCap ≤ (Session.next consume s).2.bufCap ∧
    (Session.next consume s).2.bufLen ≤ (Session.next consume s).2.bufCap ∧
    (∀ b0 b1 rest, s.reader = b0 :: b1 :: rest →
      b0 % 256 * 256 + b1 % 256 ≤ (Session.next consume s).2.bufCap) := by
  obtain ⟨r, len, cap, srv⟩ := s
  simp only at hinv
  match r with
  | [] =>
    refine ⟨le_refl _, hinv, ?_⟩
    intro b0 b1 rest h
    simp at h
  | [b] =>
    refine ⟨le_refl _, hinv, ?_⟩
    intro b0 b1 rest h
    simp at h
  | b0 :: b1 :: rest =>
    have hcap : (Session.next consume ⟨b0 :: b1 :: rest, len, cap, srv⟩).2.bufCap =
        if len ≤ b0 % 256 * 256 + b1 % 256
        then max cap (b0 % 256 * 256 + b1 % 256) else cap := by
      simp only [Session.next, List.take_succ_cons, List.take_zero,
        List.drop_succ_cons, List.drop_zero]
      repeat' split
      all_goals rfl
    have hlen : (Session.next consume ⟨b0 :: b1 :: rest, len, cap, srv⟩).2.bufLen =
        b0 % 256 * 256 + b1 % 256 := by
      simp only [Session.next, List.take_succ_cons, List.take_zero,
        List.drop_succ_cons, List.drop_zero]
      repeat' split
      all_goals rfl
    refine ⟨?_, ?_, ?_⟩
    · rw [hcap]
      split
      · exact le_max_left _ _
      · exact le_refl _
    · rw [hlen, hcap]
      split
      · exact le_max_right _ _
      · omega
    · intro c0 c1 crest h
      simp only [List.cons.injEq] at h
      obtain ⟨h0, h1, -⟩ := h
      subst h0
      subst h1
      rw [hcap]
      split
      · exact le_max_right _ _
      · omega

/-- C8 witness: from a fresh session (empty buffer, capacity 0), a frame
declaring 5 body bytes grows the capacity to at least 5 and the invariant
persists. -/
theorem session_buffer_capacity_witness :
    (Session.new () [0, 5, 9]).bufCap ≤
      (Session.next constConsume (Session.new () [0, 5, 9])).2.bufCap ∧
    (Session.next constConsume (Session.new () [0, 5, 9])).2.bufLen ≤
      (Session.next constConsume (Session.new () [0, 5, 9])).2.bufCap ∧
    (5:Nat) ≤ (Session.next constConsume (Session.new () [0, 5, 9])).2.bufCap := by
  have h := session_buffer_capacity constConsume (Session.new () [0, 5, 9])
    (by decide)
  exact ⟨h.1, h.2.1, h.2.2 0 5 [9] rfl⟩

/-- Modelled from the spec: the Session's pre-parsed message-sequence mode
with its touched-key set.  The session snapshot under `src/` yields each
successfully consumed id but keeps no key set and has no
`ids_to_extract`; the spec (§4.6, §8) describes both, so they are
modelled here from its words: the session owns the server, the remaining
message sequence, and the set of ids successfully consumed so far. -/
structure SeqSession (σ π : Type) where
  server : σ
  msgs : List (Message π)
  touched : Finset (List Nat)

/-- Modelled from the spec: one step of the pre-parsed mode — consume the
next message; on failure yield the `ConsumeError`, on success record the
message's id into the touched-key set and yield the id. -/
def SeqSession.next {σ π ε : Type}
    (consume : σ → Message π → σ × Except ε Unit) :
    SeqSession σ π → Option (Except ε (List Nat)) × SeqSession σ π
  | ⟨srv, [], t⟩ => (none, ⟨srv, [], t⟩)
  | ⟨srv, m :: rest, t⟩ =>
    match consume srv m with
    | (srv2, .error e) => (some (.error e), ⟨srv2, rest, t⟩)
    | (srv2, .ok _) =>
      (some (.ok m.header.id), ⟨srv2, rest, insert m.header.id t⟩)

/-- Modelled from the spec: drive the remaining sequence to completion,
accumulating touched keys; the step on each message is exactly
`SeqSession.next`. -/
def SeqSession.drainAux {σ π ε : Type}
    (consume : σ → Message π → σ × Except ε Unit) (srv : σ) :
    List (Message π) → Finset (List Nat) → SeqSession σ π
  | [], t => ⟨srv, [], t⟩
  | m :: rest, t =>
    match consume srv m with
    | (srv2, .error _) => SeqSession.drainAux consume srv2 rest t
    | (srv2, .ok _) =>
      SeqSession.drainAux consume srv2 rest (insert m.header.id t)

/-- Modelled from the spec: `ids_to_extract()` drains whatever remains of
the sequence and returns the accumulated set of successfully consumed
keys. -/
def SeqSession.ids_to_extract {σ π ε : Type}
    (consume : σ → Message π → σ × Except ε Unit) (s : SeqSession σ π) :
    Finset (List Nat) :=
  (SeqSession.drainAux consume s.server s.msgs s.touched).touched

/-- Modelled from the spec: driving the whole remaining sequence, as a
caller iterating `next` to exhaustion would. -/
def SeqSession.drain {σ π ε : Type}
    (consume : σ → Message π → σ × Except ε Unit) (s : SeqSession σ π) :
    SeqSession σ π :=
  SeqSession.drainAux consume s.server s.msgs s.touched

/-- The set of ids of the messages a given server state consumes
successfully along a sequence, threading the server state. -/
def successIds {σ π ε : Type}
    (consume : σ → Message π → σ × Except ε Unit) :
    σ → List (Message π) → Finset (List Nat)
  | _, [] => ∅
  | srv, m :: rest =>
    match consume srv m with
    | (srv2, .error _) => successIds consume srv2 rest
    | (srv2, .ok _) => insert m.header.id (successIds consume srv2 rest)

theorem drainAux_msgs {σ π ε : Type}
    (consume : σ → Message π → σ × Except ε Unit) :
    ∀ (msgs : List (Message π)) (srv : σ) (t : Finset (List Nat)),
      (SeqSession.drainAux consume srv msgs t).msgs = [] := by
  intro msgs
  induction msgs with
  | nil =>
    intro srv t
    rfl
  | cons m rest ih =>
    intro srv t
    rcases hc : consume srv m with ⟨srv2, res⟩
    cases res with
    | error e => simp only [SeqSession.drainAux, hc, ih]
    | ok u => simp only [SeqSession.drainAux, hc, ih]

theorem drainAux_touched {σ π ε : Type}
    (consume : σ → Message π → σ × Except ε Unit) :
    ∀ (msgs : List (Message π)) (srv : σ) (t : Finset (List Nat)),
      (SeqSession.drainAux consume srv msgs t).touched =
        t ∪ successIds consume srv msgs := by
  intro msgs
  induction msgs with
  | nil =>
    intro srv t
    simp [SeqSession.drainAux, successIds]
  | cons m rest ih =>
    intro srv t
    rcases hc : consume srv m with ⟨srv2, res⟩
    cases res with
    | error e =>
      simp only [SeqSession.drainAux, successIds, hc, ih]
    | ok u =>
      simp only [SeqSession.drainAux, successIds, hc, ih]
      rw [Finset.union_insert, Finset.insert_union]

/-- C6: every successfully consumed message has its id recorded into the
touched-key set and yielded as the produced item; `ids_to_extract` on a
fresh session returns exactly the set of ids of the successfully consumed
messages; and one `next` step never changes what `ids_to_extract` will
return, so draining manually first or letting `ids_to_extract` drain the
remainder gives the same set. -/
theorem session_ids_to_extract {σ π ε : Type}
    (consume : σ → Message π → σ × Except ε Unit) :
    (∀ (srv srv2 : σ) (m : Message π) rest t u,
      consume srv m = (srv2, .ok u) →
      SeqSession.next consume ⟨srv, m :: rest, t⟩ =
        (some (.ok m.header.id), ⟨srv2, rest, insert m.header.id t⟩)) ∧
    (∀ (srv : σ) (msgs : List (Message π)),
      SeqSession.ids_to_extract consume ⟨srv, msgs, ∅⟩ =
        successIds consume srv msgs) ∧
    (∀ s : SeqSession σ π,
      SeqSession.ids_to_extract consume ((SeqSession.next consume s).2) =
        SeqSession.ids_to_extract consume s) ∧
    (∀ s : SeqSession σ π,
      SeqSession.ids_to_extract consume (SeqSession.drain consume s) =
        SeqSession.ids_to_extract consume s) := by
  refine ⟨?_, ?_, ?_, ?_⟩
  · intro srv srv2 m rest t u hc
    simp only [SeqSession.next, hc]
  · intro srv msgs
    simp only [SeqSession.ids_to_extract, drainAux_touched,
      Finset.empty_union]
  · intro s
    obtain ⟨srv, msgs, t⟩ := s
    cases msgs with
    | nil => rfl
    | cons m rest =>
      rcases hc : consume srv m with ⟨srv2, res⟩
      cases res with
      | error e =>
        simp only [SeqSession.next, hc, SeqSession.ids_to_extract,
          drainAux_touched, successIds]
      | ok u =>
        simp only [SeqSession.next, hc, SeqSession.ids_to_extract,
          drainAux_touched, successIds]
        rw [Finset.union_insert, Finset.insert_union]
  · intro s
    obtain ⟨srv, msgs, t⟩ := s
    simp only [SeqSession.ids_to_extract, SeqSession.drain]
    rw [drainAux_msgs]
    rfl

/-- Three messages with ids `[1]`, `[2]`, `[3]`. -/
def msgsThree : List (Message Unit) :=
  [⟨⟨[], [1], 0⟩, ()⟩, ⟨⟨[], [2], 0⟩, ()⟩, ⟨⟨[], [3], 0⟩, ()⟩]

/-- A consume that rejects exactly the id `[2]` and counts calls. -/
def failSecondConsume : Nat → Message Unit → Nat × Except Unit Unit :=
  fun n m => if m.header.id = [2] then (n + 1, .error ()) else (n + 1, .ok ())

/-- C6 witness: a three-message sequence whose middle message fails;
stepping once by hand and then draining gives the same two-element id
set that draining from the start gives. -/
theorem session_ids_to_extract_witness :
    SeqSession.next failSecondConsume ⟨0, msgsThree, ∅⟩ =
      (some (.ok [1]), ⟨1, msgsThree.tail, insert [1] ∅⟩) ∧
    SeqSession.ids_to_extract failSecondConsume ⟨0, msgsThree, ∅⟩ =
      successIds failSecondConsume 0 msgsThree ∧
    SeqSession.ids_to_extract failSecondConsume
        ((SeqSession.next failSecondConsume ⟨0, msgsThree, ∅⟩).2) =
      SeqSession.ids_to_extract failSecondConsume ⟨0, msgsThree, ∅⟩ := by
  have h := session_ids_to_extract failSecondConsume
  exact ⟨h.1 0 1 ⟨⟨[], [1], 0⟩, ()⟩ msgsThree.tail ∅ () rfl,
    h.2.1 0 msgsThree, h.2.2.1 ⟨0, msgsThree, ∅⟩⟩

end Sousveillance
